import Mathlib

/-!
Verification of the mock-examination platform (test-session engine,
community voting/points engine, reply pagination, profile name-change gate).
Definitions are shallow embeddings of the TypeScript pages
(`src/pages/Landing.tsx`, `src/pages/community/CommunityPage.tsx`,
`src/pages/community/PostDetailPage.tsx`, the Results page) and of the SQL
schema/triggers (`create-community-tables.sql`).  JS numbers holding integer
values are modelled as `Nat`/`Int`; JS objects used as maps are modelled as
functions; DB tables are modelled as lists of rows.
-/

/-! ## Test session engine (Landing.tsx) -/

/-- A question row as transformed in `fetchQuestions` (Landing.tsx). -/
structure Question where
  id : Nat
  question_text : String
  options : List String
  correct_answer : String
  subject : String
  explanation : String
deriving DecidableEq, Repr

/-- Client-held state of one attempt: the `useState` hooks of the test page
(`questions`, `currentQuestionIndex`, `answers`, `timeLeft`,
`questionStartTime`, `timePerQuestion`).  `answers` models the JS object
`{ [key: number]: string }`; `timePerQuestion` models the JS array with the
`|| 0` defaulting the code applies at every read. Times are milliseconds
(`Date.now()`) for `questionStartTime` and seconds elsewhere. -/
structure TestState where
  questions : List Question
  currentQuestionIndex : Nat
  answers : Nat → Option String
  timeLeft : Int
  questionStartTime : Int
  timePerQuestion : Nat → Int

/-- `Math.round(d / 1000)` for an integer millisecond delta `d`:
`Math.round x = ⌊x + 1/2⌋`, and `⌊d/1000 + 1/2⌋ = ⌊(2d+1000)/2000⌋`. -/
def msToRoundedSeconds (d : Int) : Int := Int.fdiv (2 * d + 1000) 2000

/-- `Math.max(0, Math.round((now - questionStartTime) / 1000))` from
`handleNext` / `handleSubmit` (Landing.tsx). -/
def elapsedSeconds (now start : Int) : Int := max 0 (msToRoundedSeconds (now - start))

/-- The time-flush common to `handleNext` and `handleSubmit`:
`copy[currentQuestionIndex] = (copy[currentQuestionIndex] || 0) + elapsed`. -/
def flushTime (s : TestState) (now : Int) : TestState :=
  { s with timePerQuestion := fun i =>
      if i = s.currentQuestionIndex then
        s.timePerQuestion i + elapsedSeconds now s.questionStartTime
      else s.timePerQuestion i }

/-- `handleAnswerChange` (Landing.tsx): spread-update of the `answers` object
at the current question's id. -/
def handleAnswerChange (s : TestState) (value : String) : TestState :=
  match s.questions[s.currentQuestionIndex]? with
  | some q => { s with answers := fun k => if k = q.id then some value else s.answers k }
  | none => s

/-- `handleNext` (Landing.tsx): guarded by
`currentQuestionIndex < questions.length - 1`; flushes elapsed time into the
index being left, resets `questionStartTime`, then advances the pointer. -/
def handleNext (s : TestState) (now : Int) : TestState :=
  if s.currentQuestionIndex < s.questions.length - 1 then
    let s1 := flushTime s now
    { s1 with questionStartTime := now
              currentQuestionIndex := s.currentQuestionIndex + 1 }
  else s

/-- `handlePrevious` (Landing.tsx): guarded by `currentQuestionIndex > 0`;
only decrements the pointer (no time flush, no `questionStartTime` reset). -/
def handlePrevious (s : TestState) : TestState :=
  if 0 < s.currentQuestionIndex then
    { s with currentQuestionIndex := s.currentQuestionIndex - 1 }
  else s

/-- The question navigator button's `onClick={() => setCurrentQuestionIndex(index)}`
(Landing.tsx sidebar): a direct jump that only moves the pointer. -/
def navigatorJump (s : TestState) (index : Nat) : TestState :=
  { s with currentQuestionIndex := index }

/-- One entry of the `results` array built in `handleSubmit`. -/
structure ResultItem where
  question : Question
  userAnswer : String
  isCorrect : Bool
  isSkipped : Bool
deriving DecidableEq, Repr

/-- The per-question mapping inside `handleSubmit`:
`userAnswer = answers[question.id] || ""`, `isSkipped = userAnswer === ""`,
`isCorrect = !isSkipped && userAnswer === question.correct_answer`. -/
def resultFor (answers : Nat → Option String) (q : Question) : ResultItem :=
  let userAnswer := (answers q.id).getD ""
  let isSkipped := userAnswer == ""
  let isCorrect := !isSkipped && (userAnswer == q.correct_answer)
  ⟨q, userAnswer, isCorrect, isSkipped⟩

/-- The navigation payload handed to the Results page by `handleSubmit`. -/
structure SubmitPayload where
  results : List ResultItem
  score : Nat
  total : Nat
  timePerQuestion : Nat → Int
  skippedCount : Nat
  wrongCount : Int

/-- `handleSubmit` (Landing.tsx): flush the final question's time, map each
question to a `ResultItem`, and aggregate
`score = results.filter(isCorrect).length`,
`skippedCount = results.filter(isSkipped).length`,
`wrongCount = results.length - score - skippedCount`. -/
def handleSubmit (s : TestState) (now : Int) : SubmitPayload :=
  let finalTimes := (flushTime s now).timePerQuestion
  let results := s.questions.map (resultFor s.answers)
  let score := (results.filter (·.isCorrect)).length
  let skippedCount := (results.filter (·.isSkipped)).length
  let wrongCount : Int := (results.length : Int) - score - skippedCount
  ⟨results, score, s.questions.length, finalTimes, skippedCount, wrongCount⟩

/-- `Math.round` restricted to a nonnegative integer argument (used by the
code only on products of naturals): `⌊n + 1/2⌋ = (2n+1)/2`. -/
def mathRoundNat (n : Nat) : Nat := (2 * n + 1) / 2

/-- `Math.round((score / total) * 100)` from `saveResults` (Results page):
for naturals `s`, `t` this is `⌊100*s/t + 1/2⌋ = ⌊(200*s + t) / (2*t)⌋`. -/
def roundPct (s t : Nat) : Nat := (200 * s + t) / (2 * t)

/-- The row inserted into `TestResults` by `saveResults` (Results page). -/
structure TestResultRow where
  subject : String
  score_percent : Nat
  correct_count : Nat
  wrong_count : Int
  skipped_count : Nat
  total_questions : Nat
deriving Repr

/-- `saveResults` (Results page): builds `resultData` from the navigation
payload.  `wrongCount`/`skippedCount` arrive as numbers from `handleSubmit`,
so the `typeof === 'number'` fallbacks take the given values;
`subject = results[0]?.question?.subject || ''`. -/
def saveResults (p : SubmitPayload) : TestResultRow :=
  { subject := ((p.results.head?).map (fun r => r.question.subject)).getD ""
    score_percent := roundPct p.score p.total
    correct_count := p.score
    wrong_count := p.wrongCount
    skipped_count := p.skippedCount
    total_questions := p.total }

/-- The countdown tick `setTimeLeft(t => (t > 0 ? t - 1 : 0))` (Landing.tsx). -/
def countdownTick (t : Int) : Int := if t > 0 then t - 1 else 0

/-! ## Community voting engine (CommunityPage.tsx, PostDetailPage.tsx,
create-community-tables.sql) -/

/-- `vote_type TEXT CHECK (vote_type IN ('up', 'down'))`. -/
inductive VoteType where
  | up
  | down
deriving DecidableEq, Repr

/-- A row of the `votes` table (`id SERIAL PRIMARY KEY`, `post_id`,
`user_id UUID`, `vote_type`).  Ids are modelled as `Nat`, UUIDs as `String`. -/
structure VoteRow where
  id : Nat
  post_id : Nat
  user_id : String
  vote_type : VoteType
deriving DecidableEq, Repr

/-- The `(post_id, user_id)` key predicate used by the existing-vote lookup
`.eq("post_id", postId).eq("user_id", user.id)` in `handleVote`. -/
def voteKey (postId : Nat) (userId : String) (r : VoteRow) : Bool :=
  r.post_id == postId && r.user_id == userId

/-- The single write `handleVote` issues after the existing-vote lookup. -/
inductive VoteWrite where
  | insertRow (r : VoteRow)
  | updateType (id : Nat) (vt : VoteType)
  | deleteRow (id : Nat)
deriving DecidableEq, Repr

/-- `handleVote` (CommunityPage.tsx / PostDetailPage.tsx): look up the caller's
existing vote on the post; same type → delete by id, opposite type → update
`vote_type` by id, no row → insert `{post_id, user_id, vote_type}` (the DB
assigns the fresh SERIAL `id`). -/
def handleVote (db : List VoteRow) (freshId postId : Nat) (userId : String)
    (vt : VoteType) : VoteWrite :=
  match db.find? (voteKey postId userId) with
  | some r => if r.vote_type = vt then .deleteRow r.id else .updateType r.id vt
  | none => .insertRow ⟨freshId, postId, userId, vt⟩

/-- Effect of one write on the `votes` table. -/
def applyWrite (db : List VoteRow) : VoteWrite → List VoteRow
  | .insertRow r => db ++ [r]
  | .updateType i vt => db.map (fun r => if r.id = i then { r with vote_type := vt } else r)
  | .deleteRow i => db.filter (fun r => r.id != i)

/-- One full vote action: lookup followed by exactly the one write. -/
def voteStep (db : List VoteRow) (freshId postId : Nat) (userId : String)
    (vt : VoteType) : List VoteRow :=
  applyWrite db (handleVote db freshId postId userId vt)

/-- `upvotes = post.votes.filter(v => v.vote_type === 'up').length`
(loadPosts / loadPost). -/
def upvotesOf (votes : List VoteRow) : Nat :=
  (votes.filter (fun v => v.vote_type == VoteType.up)).length

/-- `downvotes = post.votes.filter(v => v.vote_type === 'down').length`. -/
def downvotesOf (votes : List VoteRow) : Nat :=
  (votes.filter (fun v => v.vote_type == VoteType.down)).length

/-- The displayed score `post.upvotes - post.downvotes` (CommunityPage list
item and PostDetailPage header). -/
def displayedScore (votes : List VoteRow) : Int :=
  (upvotesOf votes : Int) - (downvotesOf votes : Int)

/-- The caller's own vote state:
`post.votes.find(v => v.user_id === user.id)?.vote_type` (loadPosts /
loadPost). -/
def userVoteOf (votes : List VoteRow) (uid : String) : Option VoteType :=
  (votes.find? (fun v => v.user_id == uid)).map (fun v => v.vote_type)

/-! ## Points triggers (create-community-tables.sql) -/

/-- State touched by the point triggers: the `posts` table projected to
`(id, author_id)` pairs, and the `user_points` table as a total map with
absent rows read as 0 (the `ON CONFLICT` upsert makes insert-or-add
equivalent to adding to this default-0 map). -/
structure CommunityState where
  posts : List (Nat × String)
  points : String → Int

/-- `update_user_points(p_user_id, p_points_to_add)`: upsert that adds
`p_points_to_add` to the user's points row (creating it if absent). -/
def update_user_points (pts : String → Int) (uid : String) (add : Int) : String → Int :=
  fun u => if u = uid then pts u + add else pts u

/-- Row-level write events on the tables that carry point triggers.  The SQL
defines `AFTER INSERT` triggers on `posts` (+10 to author), `replies` (+5 to
author) and `votes` (+2 to the post's author, only when `vote_type = 'up'`);
there is no trigger on vote UPDATE or DELETE. -/
inductive DbEvent where
  | postInsert (postId : Nat) (authorId : String)
  | replyInsert (replyId : Nat) (postId : Nat) (authorId : String)
  | voteInsert (postId : Nat) (userId : String) (vt : VoteType)
  | voteUpdate (postId : Nat) (userId : String) (vt : VoteType)
  | voteDelete (postId : Nat) (userId : String)

/-- Effect of one write event on `CommunityState`, per the SQL triggers.
For `voteInsert` the trigger runs
`SELECT author_id INTO post_author_id FROM posts WHERE id = NEW.post_id`;
the `votes.post_id` foreign key guarantees the post exists, and a lookup
miss grants nothing. -/
def applyEvent (s : CommunityState) : DbEvent → CommunityState
  | .postInsert pid author =>
      { posts := s.posts ++ [(pid, author)]
        points := update_user_points s.points author 10 }
  | .replyInsert _ _ author =>
      { s with points := update_user_points s.points author 5 }
  | .voteInsert pid _ vt =>
      match (s.posts.find? (fun p => p.1 == pid)).map (fun p => p.2) with
      | some postAuthor =>
          if vt = VoteType.up then
            { s with points := update_user_points s.points postAuthor 2 }
          else s
      | none => s
  | .voteUpdate _ _ _ => s
  | .voteDelete _ _ => s

/-! ## Reply pagination (PostDetailPage.tsx) -/

/-- A row of the `replies` table; `created_at` is modelled as an integer
timestamp. -/
structure Reply where
  id : Nat
  post_id : Nat
  content : String
  author_id : String
  created_at : Int
deriving DecidableEq, Repr

/-- `REPLIES_PER_PAGE = 5`. -/
def REPLIES_PER_PAGE : Nat := 5

/-- One page fetched by `loadReplies(page)`: the inclusive range
`[page*5, page*5 + 4]` of the post's replies ordered by `created_at`
ascending (`.order("created_at", { ascending: true }).range(from, to)`),
taken from `rs`, the full ordered reply list of the post. -/
def repliesPage (rs : List Reply) (page : Nat) : List Reply :=
  (rs.drop (page * REPLIES_PER_PAGE)).take REPLIES_PER_PAGE

/-- `hasMoreReplies` after `loadReplies(page)`:
`loadedReplies = (page + 1) * REPLIES_PER_PAGE; loadedReplies < totalReplies`. -/
def hasMoreAfter (page total : Nat) : Bool :=
  (page + 1) * REPLIES_PER_PAGE < total

/-- The in-memory reply list after loading pages `0..k` (initial load plus
`loadMoreReplies` appends: `setReplies(prev => [...prev, ...newReplies])`). -/
def loadedPages (rs : List Reply) (k : Nat) : List Reply :=
  ((List.range (k + 1)).map (repliesPage rs)).flatten

/-! ## Question shuffle at test initiation (Landing.tsx, fetchQuestions)

`fetchQuestions` shuffles with `transformedQuestions.sort(() => Math.random() - 0.5)`.
`Array.prototype.sort` on arrays of this size is an insertion sort in the
major engines; each comparator call samples an independent sign of
`Math.random() - 0.5`.  We model the comparator call stream as a list of fair
coins: `true` stands for a negative sample (keep the probed order), `false`
for a nonnegative one.  An exhausted coin list answers `true` (irrelevant:
the statements below supply enough coins). -/

/-- Insert `x` into `ys`, consuming one coin per comparator call; returns the
remaining coins with the new list. -/
def insertC (x : Question) : List Bool → List Question → List Bool × List Question
  | coins, [] => (coins, [x])
  | [], ys => ([], x :: ys)
  | c :: cs, y :: ys =>
      if c then (cs, x :: y :: ys)
      else
        let r := insertC x cs ys
        (r.1, y :: r.2)

/-- Comparator-driven insertion sort over the coin stream. -/
def sortC : List Bool → List Question → List Bool × List Question
  | coins, [] => (coins, [])
  | coins, x :: xs =>
      let r := sortC coins xs
      insertC x r.1 r.2

/-- The selection step of `fetchQuestions`: shuffle the fetched set with the
random comparator, keep the first 20 (`shuffledQuestions.slice(0, 20)`), and
set the global countdown to `Math.round(selectedQuestions.length * 63)`
seconds.  Returns `none` on an empty fetched set (the page toasts
"No Questions Found" and redirects). -/
def fetchQuestionsSelect (coins : List Bool) (fetched : List Question) :
    Option (List Question × Nat) :=
  if fetched.isEmpty then none
  else
    let shuffled := (sortC coins fetched).2
    let selected := shuffled.take 20
    some (selected, mathRoundNat (selected.length * 63))

/-- Three distinct questions used to sample the shuffle's output distribution. -/
def q4a : Question := ⟨1, "a", [], "A", "Anatomy", ""⟩

def q4b : Question := ⟨2, "b", [], "B", "Anatomy", ""⟩

def q4c : Question := ⟨3, "c", [], "C", "Anatomy", ""⟩

/-- All 2³ equally likely comparator-sign sequences for a 3-element shuffle
(insertion sort on 3 elements makes at most 3 comparator calls). -/
def coinSeq3 : List (List Bool) :=
  [[false, false, false], [false, false, true], [false, true, false],
   [false, true, true], [true, false, false], [true, false, true],
   [true, true, false], [true, true, true]]

/-- Number of the 8 equally likely coin sequences under which the shuffle of
`[q4a, q4b, q4c]` produces the given ordering. -/
def shuffleCount (perm : List Question) : Nat :=
  (coinSeq3.filter (fun c => (sortC c [q4a, q4b, q4c]).2 == perm)).length

/-! ## Profile name-change gate (ProfilePage) -/

/-- A row of `profiles` as used by the profile page; `last_name_change` is an
integer millisecond timestamp or null. -/
structure Profile where
  id : String
  display_name : String
  college : Option String
  year : Option String
  status : Option String
  last_name_change : Option Int
deriving DecidableEq, Repr

/-- Milliseconds per day, the divisor `1000 * 60 * 60 * 24` of `canChangeName`. -/
def msPerDay : Int := 86400000

/-- `canChangeName` (ProfilePage): null `last_name_change` permits; otherwise
`daysDiff = (now - lastChange) / 86400000 ≥ 60`, with exact (rational)
division as in JS. -/
def canChangeName (p : Profile) (now : Int) : Bool :=
  match p.last_name_change with
  | none => true
  | some t => decide ((60 : ℚ) ≤ ((now - t : Int) : ℚ) / (msPerDay : ℚ))

/-- `handleSave` (ProfilePage) restricted to its persistent effect: returns
(accepted?, resulting stored profile).  `updateData` always carries
college/year/status; when the submitted name differs from the stored one the
gate runs — a failed gate returns early (no DB write at all), a passed gate
additionally stores the new name and `last_name_change = now`. -/
def handleSave (p : Profile) (newName : String) (college year status : Option String)
    (now : Int) : Bool × Profile :=
  if newName ≠ p.display_name then
    if canChangeName p now then
      (true, { p with display_name := newName
                      last_name_change := some now
                      college := college, year := year, status := status })
    else (false, p)
  else (true, { p with college := college, year := year, status := status })

/-! ## Basic sanity checks of the embedding on concrete data -/

example : msToRoundedSeconds 1500 = 2 := by decide
example : msToRoundedSeconds 1499 = 1 := by decide
example : elapsedSeconds 10000 0 = 10 := by decide
example : mathRoundNat 1260 = 1260 := by decide
example : roundPct 1 3 = 33 := by decide
example : roundPct 1 8 = 13 := by decide
example : roundPct 2 3 = 67 := by decide

/-! ## Helper definitions for concrete counterexamples and witnesses -/

/-- A concrete two-question state sitting on question index 1, with ten
wall-clock seconds elapsed since the last navigation at `now = 10000`. -/
def c3State : TestState :=
  { questions := [⟨1, "q1", ["A"], "A", "Anatomy", ""⟩, ⟨2, "q2", ["B"], "B", "Anatomy", ""⟩]
    currentQuestionIndex := 1
    answers := fun _ => none
    timeLeft := 100
    questionStartTime := 0
    timePerQuestion := fun _ => 0 }

/-! ## Helper lemmas -/

theorem countdownTick_nonneg {t : Int} (h : 0 ≤ t) : 0 ≤ countdownTick t := by
  unfold countdownTick
  split <;> omega

theorem mathRoundNat_eq (n : Nat) : mathRoundNat n = n := by
  unfold mathRoundNat
  omega

/-- `Math.round((s / t) * 100)` for naturals agrees with the mathematical
rounding `round(100·s/t)` whenever `t > 0`. -/
theorem roundPct_eq_round (s t : Nat) (ht : 0 < t) :
    (roundPct s t : Int) = round ((s : ℚ) / (t : ℚ) * 100) := by
  have ht' : (t : ℚ) ≠ 0 := Nat.cast_ne_zero.2 ht.ne'
  rw [round_eq]
  have h1 : (s : ℚ) / (t : ℚ) * 100 + 1 / 2 =
      ((200 * s + t : ℕ) : ℤ) / ((2 * t : ℕ) : ℚ) := by
    push_cast
    field_simp
    ring
  rw [h1, Rat.floor_intCast_div_natCast]
  unfold roundPct
  rw [Int.ofNat_div]
  push_cast
  rfl

/-! ## C3 -/

/-- C3 counterexample: at a concrete state on question 1 with ten seconds
elapsed (`now = 10000`, `questionStartTime = 0`), a backward move and a
navigator jump change the question pointer without accumulating the elapsed
seconds into `timePerQuestion[1]` (the question being left), contradicting
the claim that every navigation action flushes elapsed time. -/
theorem C3_no_flush_on_back_or_jump_counterexample :
    (handlePrevious c3State).currentQuestionIndex = 0 ∧
    (navigatorJump c3State 0).currentQuestionIndex = 0 ∧
    elapsedSeconds 10000 c3State.questionStartTime = 10 ∧
    ¬ (handlePrevious c3State).timePerQuestion 1 =
        c3State.timePerQuestion 1 + elapsedSeconds 10000 c3State.questionStartTime ∧
    ¬ (navigatorJump c3State 0).timePerQuestion 1 =
        c3State.timePerQuestion 1 + elapsedSeconds 10000 c3State.questionStartTime := by
  refine ⟨rfl, rfl, by decide, ?_, ?_⟩ <;> · show ¬ (0 : Int) = 0 + 10; decide

/-- C3 amended: elapsed wall-clock seconds are accumulated into
`timePerQuestion` at the index of the question being left only on a forward
move and on submission (which also reset/stop the reference clock); a
backward move and a direct navigator jump move the pointer without flushing
elapsed time and without resetting `questionStartTime`. -/
theorem C3_flush_forward_and_submit_only (s : TestState) (now : Int) (index : Nat)
    (hlt : s.currentQuestionIndex < s.questions.length - 1)
    (hgt : 0 < s.currentQuestionIndex) :
    (handleNext s now).timePerQuestion s.currentQuestionIndex
        = s.timePerQuestion s.currentQuestionIndex + elapsedSeconds now s.questionStartTime ∧
    (handleNext s now).currentQuestionIndex = s.currentQuestionIndex + 1 ∧
    (handleNext s now).questionStartTime = now ∧
    (∀ i, i ≠ s.currentQuestionIndex →
        (handleNext s now).timePerQuestion i = s.timePerQuestion i) ∧
    (handleSubmit s now).timePerQuestion s.currentQuestionIndex
        = s.timePerQuestion s.currentQuestionIndex + elapsedSeconds now s.questionStartTime ∧
    (∀ i, i ≠ s.currentQuestionIndex →
        (handleSubmit s now).timePerQuestion i = s.timePerQuestion i) ∧
    (handlePrevious s).timePerQuestion = s.timePerQuestion ∧
    (handlePrevious s).questionStartTime = s.questionStartTime ∧
    (handlePrevious s).currentQuestionIndex = s.currentQuestionIndex - 1 ∧
    (navigatorJump s index).timePerQuestion = s.timePerQuestion ∧
    (navigatorJump s index).questionStartTime = s.questionStartTime ∧
    (navigatorJump s index).currentQuestionIndex = index := by
  refine ⟨?_, ?_, ?_, ?_, ?_, ?_, ?_, ?_, ?_, rfl, rfl, rfl⟩
  · simp [handleNext, hlt, flushTime]
  · simp [handleNext, hlt, flushTime]
  · simp [handleNext, hlt, flushTime]
  · intro i hi
    simp [handleNext, hlt, flushTime, hi]
  · simp [handleSubmit, flushTime]
  · intro i hi
    simp [handleSubmit, flushTime, hi]
  · simp [handlePrevious, hgt]
  · simp [handlePrevious, hgt]
  · simp [handlePrevious, hgt]

/-- Witness state for the amended navigation/flush theorem: three questions,
pointer in the middle. -/
def c3Mid : TestState :=
  { questions := [⟨1, "q1", ["A"], "A", "Anatomy", ""⟩, ⟨2, "q2", ["B"], "B", "Anatomy", ""⟩,
                  ⟨3, "q3", ["C"], "C", "Anatomy", ""⟩]
    currentQuestionIndex := 1
    answers := fun _ => none
    timeLeft := 100
    questionStartTime := 0
    timePerQuestion := fun _ => 0 }

/-- Witness: the amended flush behaviour evaluated at the middle of a
three-question attempt with `now = 10000`. -/
theorem C3_flush_forward_and_submit_only_witness :
    (c3Mid.currentQuestionIndex < c3Mid.questions.length - 1 ∧ 0 < c3Mid.currentQuestionIndex) ∧
      ((handleNext c3Mid 10000).timePerQuestion c3Mid.currentQuestionIndex
          = c3Mid.timePerQuestion c3Mid.currentQuestionIndex
            + elapsedSeconds 10000 c3Mid.questionStartTime ∧
        (handleNext c3Mid 10000).currentQuestionIndex = c3Mid.currentQuestionIndex + 1 ∧
        (handleNext c3Mid 10000).questionStartTime = 10000 ∧
        (∀ i, i ≠ c3Mid.currentQuestionIndex →
            (handleNext c3Mid 10000).timePerQuestion i = c3Mid.timePerQuestion i) ∧
        (handleSubmit c3Mid 10000).timePerQuestion c3Mid.currentQuestionIndex
          = c3Mid.timePerQuestion c3Mid.currentQuestionIndex
            + elapsedSeconds 10000 c3Mid.questionStartTime ∧
        (∀ i, i ≠ c3Mid.currentQuestionIndex →
            (handleSubmit c3Mid 10000).timePerQuestion i = c3Mid.timePerQuestion i) ∧
        (handlePrevious c3Mid).timePerQuestion = c3Mid.timePerQuestion ∧
        (handlePrevious c3Mid).questionStartTime = c3Mid.questionStartTime ∧
        (handlePrevious c3Mid).currentQuestionIndex = c3Mid.currentQuestionIndex - 1 ∧
        (navigatorJump c3Mid 0).timePerQuestion = c3Mid.timePerQuestion ∧
        (navigatorJump c3Mid 0).questionStartTime = c3Mid.questionStartTime ∧
        (navigatorJump c3Mid 0).currentQuestionIndex = 0) :=
  ⟨⟨by decide, by decide⟩,
    C3_flush_forward_and_submit_only c3Mid 10000 0 (by decide) (by decide)⟩

/-! ## C10 -/

/-- C10: the countdown tick maps remaining time `t` to `t - 1` when `t > 0`
and to `0` otherwise, so a session started with a non-negative allotted time
never reaches a negative `timeLeft` under any number of ticks. -/
theorem C10_countdown_tick_nonneg (t0 : Int) (h : 0 ≤ t0) (n : Nat) :
    (∀ t : Int, countdownTick t = if t > 0 then t - 1 else 0) ∧
    0 ≤ countdownTick^[n] t0 := by
  refine ⟨fun _ => rfl, ?_⟩
  induction n with
  | zero => simpa using h
  | succ m ih =>
      rw [Function.iterate_succ_apply']
      exact countdownTick_nonneg ih

/-- Witness: a 5-second session ticked 7 times is still non-negative. -/
theorem C10_countdown_tick_nonneg_witness :
    (0 : Int) ≤ 5 ∧
      ((∀ t : Int, countdownTick t = if t > 0 then t - 1 else 0) ∧
        0 ≤ countdownTick^[7] (5 : Int)) :=
  ⟨by decide, C10_countdown_tick_nonneg 5 (by decide) 7⟩

/-! ## C9 -/

/-- C9: selecting an answer only overwrites the `answers` entry of the
current question's id (idempotently); every other stored answer and the
question list, pointer, per-question times and remaining time are unchanged. -/
theorem C9_answer_change_frame (s : TestState) (v : String)
    (hidx : s.currentQuestionIndex < s.questions.length) :
    (handleAnswerChange s v).answers
        (s.questions.get ⟨s.currentQuestionIndex, hidx⟩).id = some v ∧
    (∀ k, k ≠ (s.questions.get ⟨s.currentQuestionIndex, hidx⟩).id →
        (handleAnswerChange s v).answers k = s.answers k) ∧
    (handleAnswerChange s v).questions = s.questions ∧
    (handleAnswerChange s v).currentQuestionIndex = s.currentQuestionIndex ∧
    (handleAnswerChange s v).timePerQuestion = s.timePerQuestion ∧
    (handleAnswerChange s v).timeLeft = s.timeLeft ∧
    (handleAnswerChange s v).questionStartTime = s.questionStartTime ∧
    handleAnswerChange (handleAnswerChange s v) v = handleAnswerChange s v := by
  have key : ∀ s' : TestState, ∀ h' : s'.currentQuestionIndex < s'.questions.length,
      handleAnswerChange s' v = { s' with answers :=
        (fun k => if k = (s'.questions.get ⟨s'.currentQuestionIndex, h'⟩).id
                  then some v else s'.answers k) } := by
    intro s' h'
    unfold handleAnswerChange
    rw [List.get_eq_getElem, List.getElem?_eq_getElem h']
  have h1 := key s hidx
  have hidx2 : (handleAnswerChange s v).currentQuestionIndex <
      (handleAnswerChange s v).questions.length := by
    rw [h1]; exact hidx
  have h2 := key (handleAnswerChange s v) hidx2
  refine ⟨?_, ?_, ?_, ?_, ?_, ?_, ?_, ?_⟩
  · rw [h1]; simp
  · intro k hk
    rw [h1]
    exact if_neg hk
  · rw [h1]
  · rw [h1]
  · rw [h1]
  · rw [h1]
  · rw [h1]
  · rw [h2]
    simp only [h1]
    congr 1
    funext k
    by_cases hk : k = (s.questions.get ⟨s.currentQuestionIndex, hidx⟩).id <;>
      simp [List.get_eq_getElem] at hk ⊢ <;> simp [h1, hk]

/-- Witness state for the frame-effect theorem. -/
def c9State : TestState :=
  { questions := [⟨1, "q", ["A", "B"], "A", "Anatomy", ""⟩]
    currentQuestionIndex := 0
    answers := fun _ => none
    timeLeft := 63
    questionStartTime := 0
    timePerQuestion := fun _ => 0 }

/-- Witness: the frame property evaluated at a concrete one-question state. -/
theorem C9_answer_change_frame_witness :
    c9State.currentQuestionIndex < c9State.questions.length ∧
      ((handleAnswerChange c9State "B").answers
          (c9State.questions.get ⟨c9State.currentQuestionIndex, by decide⟩).id = some "B" ∧
        (∀ k, k ≠ (c9State.questions.get ⟨c9State.currentQuestionIndex, by decide⟩).id →
            (handleAnswerChange c9State "B").answers k = c9State.answers k) ∧
        (handleAnswerChange c9State "B").questions = c9State.questions ∧
        (handleAnswerChange c9State "B").currentQuestionIndex = c9State.currentQuestionIndex ∧
        (handleAnswerChange c9State "B").timePerQuestion = c9State.timePerQuestion ∧
        (handleAnswerChange c9State "B").timeLeft = c9State.timeLeft ∧
        (handleAnswerChange c9State "B").questionStartTime = c9State.questionStartTime ∧
        handleAnswerChange (handleAnswerChange c9State "B") "B" = handleAnswerChange c9State "B") :=
  ⟨by decide, C9_answer_change_frame c9State "B" (by decide)⟩

/-! ## C8 -/

/-- The strict form of the rational day comparison of `canChangeName`,
reduced to an integer millisecond comparison. -/
theorem daysLt_iff (now t : Int) :
    ((now - t : Int) : ℚ) / (msPerDay : ℚ) < 60 ↔ now - t < 60 * msPerDay := by
  rw [div_lt_iff₀ (by norm_num [msPerDay] : (0 : ℚ) < (msPerDay : ℚ))]
  rw [show (60 : ℚ) * (msPerDay : ℚ) = ((60 * msPerDay : Int) : ℚ) by push_cast; ring]
  exact Int.cast_lt

/-- `canChangeName` decides exactly the integer comparison
`now - t ≥ 60 days` (in milliseconds). -/
theorem canChangeName_iff (p : Profile) (now t : Int)
    (ht : p.last_name_change = some t) :
    canChangeName p now = true ↔ 60 * msPerDay ≤ now - t := by
  unfold canChangeName
  rw [ht]
  rw [decide_eq_true_iff]
  rw [le_div_iff₀ (by norm_num [msPerDay] : (0 : ℚ) < (msPerDay : ℚ))]
  rw [show (60 : ℚ) * (msPerDay : ℚ) = ((60 * msPerDay : Int) : ℚ) by push_cast; ring]
  exact Int.cast_le

/-- C8: a display-name change request (a submitted name different from the
stored one) is rejected exactly when `now - lastNameChange < 60 days`, a null
`lastNameChange` always permits the change, an accepted change stores the new
name and sets `lastNameChange` to `now`, and a rejected request leaves the
stored profile (in particular the display name) unchanged. -/
theorem C8_name_change_gate (p : Profile) (newName : String)
    (college year status : Option String) (now : Int)
    (hne : newName ≠ p.display_name) :
    ((handleSave p newName college year status now).1 = false ↔
        ∃ t, p.last_name_change = some t ∧
          ((now - t : Int) : ℚ) / (msPerDay : ℚ) < 60) ∧
    (p.last_name_change = none → (handleSave p newName college year status now).1 = true) ∧
    ((handleSave p newName college year status now).1 = true →
        (handleSave p newName college year status now).2.display_name = newName ∧
        (handleSave p newName college year status now).2.last_name_change = some now) ∧
    ((handleSave p newName college year status now).1 = false →
        (handleSave p newName college year status now).2 = p) := by
  unfold handleSave
  rw [if_pos hne]
  by_cases hc : canChangeName p now = true
  · rw [if_pos hc]
    refine ⟨?_, fun _ => rfl, fun _ => ⟨rfl, rfl⟩, fun h => absurd h (by simp)⟩
    simp only [show (true = false) = False by simp, false_iff]
    rintro ⟨t, ht, hlt⟩
    rw [canChangeName_iff p now t ht] at hc
    rw [daysLt_iff] at hlt
    omega
  · rw [if_neg hc]
    have hsome : ∃ t, p.last_name_change = some t := by
      rcases h : p.last_name_change with _ | t
      · exfalso
        apply hc
        unfold canChangeName
        rw [h]
      · exact ⟨t, rfl⟩
    rcases hsome with ⟨t, ht⟩
    refine ⟨?_, ?_, ?_, fun _ => rfl⟩
    · simp only [show ((false : Bool) = false) = True by simp, true_iff]
      refine ⟨t, ht, ?_⟩
      rw [canChangeName_iff p now t ht] at hc
      push_neg at hc
      rw [daysLt_iff]
      omega
    · intro h
      rw [h] at ht
      exact absurd ht (by simp)
    · intro h
      exact absurd h (by simp)

/-- Witness profile: last name change 30 days ago (rejection side), and a
fresh profile with null `last_name_change` would pass. -/
def c8Profile : Profile :=
  { id := "u1", display_name := "Alice", college := none, year := none
    status := none, last_name_change := some 0 }

/-- Witness: 30 days (in ms) after a recorded name change, a rename request
is rejected and the stored profile is untouched. -/
theorem C8_name_change_gate_witness :
    ("Bob" ≠ c8Profile.display_name) ∧
      (((handleSave c8Profile "Bob" none none none 2592000000).1 = false ↔
          ∃ t, c8Profile.last_name_change = some t ∧
            ((2592000000 - t : Int) : ℚ) / (msPerDay : ℚ) < 60) ∧
        (c8Profile.last_name_change = none →
          (handleSave c8Profile "Bob" none none none 2592000000).1 = true) ∧
        ((handleSave c8Profile "Bob" none none none 2592000000).1 = true →
          (handleSave c8Profile "Bob" none none none 2592000000).2.display_name = "Bob" ∧
          (handleSave c8Profile "Bob" none none none 2592000000).2.last_name_change
            = some 2592000000) ∧
        ((handleSave c8Profile "Bob" none none none 2592000000).1 = false →
          (handleSave c8Profile "Bob" none none none 2592000000).2 = c8Profile)) :=
  ⟨by decide, C8_name_change_gate c8Profile "Bob" none none none 2592000000 (by decide)⟩

/-! ## C5 -/

/-- A list of length at most one containing `v` is `[v]`. -/
theorem eq_singleton_of_length_le_one {α : Type} {l : List α} {v : α}
    (hlen : l.length ≤ 1) (hv : v ∈ l) : l = [v] := by
  match l, hv with
  | [x], hv =>
      have : v = x := by simpa using hv
      simp [this]
  | x :: y :: t, _ => simp at hlen

/-- If a list has at most one element satisfying `p` and `v` is a member
satisfying `p`, then `find? p` returns `v`. -/
theorem find?_eq_of_unique {α : Type} (p : α → Bool) (l : List α) (v : α)
    (hlen : (l.filter p).length ≤ 1) (hv : v ∈ l) (hp : p v = true) :
    l.find? p = some v := by
  induction l with
  | nil => cases hv
  | cons x xs ih =>
      by_cases hx : p x = true
      · rw [List.find?_cons_of_pos _ hx]
        rcases List.mem_cons.1 hv with h | h
        · rw [h]
        · exfalso
          have hfil : x :: xs.filter p = (x :: xs).filter p := by
            simp [List.filter_cons, hx]
          have hmem : v ∈ xs.filter p := List.mem_filter.2 ⟨h, hp⟩
          have : 2 ≤ ((x :: xs).filter p).length := by
            rw [← hfil]
            have : 1 ≤ (xs.filter p).length := List.length_pos_of_mem hmem
            simp only [List.length_cons]
            omega
          omega
      · rw [List.find?_cons_of_neg _ hx]
        have hfil : (x :: xs).filter p = xs.filter p := by
          simp [List.filter_cons, hx]
        rcases List.mem_cons.1 hv with h | h
        · exact absurd (h ▸ hp) hx
        · exact ih (by rw [hfil] at hlen; exact hlen) h

/-- C5: for a post's vote rows, `upvotes` counts the rows with vote type
`up`, `downvotes` those with `down`, the displayed score is
`upvotes - downvotes`, and the caller's own vote state is the vote type of
the row whose `user_id` equals the current user — absent exactly when no
such row exists.  (The uniqueness hypothesis is the `UNIQUE(post_id,
user_id)` constraint restricted to one post's rows.) -/
theorem C5_tally_and_user_vote (votes : List VoteRow) (uid : String)
    (huniq : (votes.filter (fun v => v.user_id == uid)).length ≤ 1) :
    upvotesOf votes = (votes.filter (fun v => v.vote_type == VoteType.up)).length ∧
    downvotesOf votes = (votes.filter (fun v => v.vote_type == VoteType.down)).length ∧
    displayedScore votes = (upvotesOf votes : Int) - (downvotesOf votes : Int) ∧
    (userVoteOf votes uid = none ↔ ∀ v ∈ votes, v.user_id ≠ uid) ∧
    (∀ v ∈ votes, v.user_id = uid → userVoteOf votes uid = some v.vote_type) := by
  refine ⟨rfl, rfl, rfl, ?_, ?_⟩
  · unfold userVoteOf
    rw [Option.map_eq_none']
    rw [List.find?_eq_none]
    constructor
    · intro h v hv
      have := h v hv
      simpa using this
    · intro h v hv
      simpa using h v hv
  · intro v hv huid
    unfold userVoteOf
    rw [find?_eq_of_unique _ votes v huniq hv (by simpa using huid)]
    rfl

/-- Witness vote set: two voters on one post, caller is "alice". -/
def c5Votes : List VoteRow :=
  [⟨1, 7, "alice", VoteType.up⟩, ⟨2, 7, "bob", VoteType.down⟩]

/-- Witness: tallies and own-vote state on a concrete two-row vote set. -/
theorem C5_tally_and_user_vote_witness :
    (c5Votes.filter (fun v => v.user_id == "alice")).length ≤ 1 ∧
      (upvotesOf c5Votes = (c5Votes.filter (fun v => v.vote_type == VoteType.up)).length ∧
        downvotesOf c5Votes = (c5Votes.filter (fun v => v.vote_type == VoteType.down)).length ∧
        displayedScore c5Votes = (upvotesOf c5Votes : Int) - (downvotesOf c5Votes : Int) ∧
        (userVoteOf c5Votes "alice" = none ↔ ∀ v ∈ c5Votes, v.user_id ≠ "alice") ∧
        (∀ v ∈ c5Votes, v.user_id = "alice" →
            userVoteOf c5Votes "alice" = some v.vote_type)) :=
  ⟨by decide, C5_tally_and_user_vote c5Votes "alice" (by decide)⟩

/-! ## C2 -/

/-- The in-place vote-type update applied by `applyWrite` for an `updateType`
write preserves the `(post_id, user_id)` key of every row. -/
theorem voteKey_update (p i : Nat) (u : String) (vt : VoteType) (x : VoteRow) :
    voteKey p u (if x.id = i then { x with vote_type := vt } else x) = voteKey p u x := by
  by_cases h : x.id = i <;> simp [voteKey, h]

/-- C2: starting from a `votes` table with at most one row per
`(post_id, user_id)` pair, one vote action performs exactly one write — the
one returned by `handleVote` — and afterwards the pair invariant still holds
for every pair; moreover: no existing row → the pair now holds exactly the
inserted row with the requested type; existing row of the same type → the
pair holds no row (toggle-off to NoVote); existing row of the opposite
type → the pair holds exactly the old row with its `vote_type` flipped in
place. -/
theorem C2_vote_state_machine (db : List VoteRow) (freshId postId : Nat)
    (userId : String) (vt : VoteType)
    (hinv : ∀ p u, ((db.filter (voteKey p u)).length ≤ 1)) :
    voteStep db freshId postId userId vt
        = applyWrite db (handleVote db freshId postId userId vt) ∧
    (∀ p u, (((voteStep db freshId postId userId vt).filter (voteKey p u)).length ≤ 1)) ∧
    (db.find? (voteKey postId userId) = none →
        (voteStep db freshId postId userId vt).filter (voteKey postId userId)
          = [⟨freshId, postId, userId, vt⟩]) ∧
    (∀ r, db.find? (voteKey postId userId) = some r → r.vote_type = vt →
        (voteStep db freshId postId userId vt).filter (voteKey postId userId) = []) ∧
    (∀ r, db.find? (voteKey postId userId) = some r → r.vote_type ≠ vt →
        (voteStep db freshId postId userId vt).filter (voteKey postId userId)
          = [{ r with vote_type := vt }]) := by
  refine ⟨rfl, ?_⟩
  rcases hfind : db.find? (voteKey postId userId) with _ | r
  · -- no existing row: the write is an insert
    have hdbnil : db.filter (voteKey postId userId) = [] :=
      List.filter_eq_nil_iff.2 (fun a ha hx => (List.find?_eq_none.1 hfind a ha) hx)
    have hstep : voteStep db freshId postId userId vt
        = db ++ [⟨freshId, postId, userId, vt⟩] := by
      unfold voteStep handleVote
      rw [hfind]
      rfl
    refine ⟨?_, ?_, ?_, ?_⟩
    · intro p u
      rw [hstep, List.filter_append, List.length_append]
      by_cases hnew : voteKey p u ⟨freshId, postId, userId, vt⟩ = true
      · have hp : postId = p ∧ userId = u := by simpa [voteKey] using hnew
        rcases hp with ⟨hp1, hp2⟩
        subst hp1; subst hp2
        rw [hdbnil]
        simp [hnew]
      · have : List.filter (voteKey p u) [⟨freshId, postId, userId, vt⟩] = [] := by
          simp [List.filter_cons, hnew]
        rw [this]
        simpa using hinv p u
    · intro _
      rw [hstep, List.filter_append, hdbnil]
      simp [voteKey]
    · intro r hr
      exact absurd hr (by simp)
    · intro r hr
      exact absurd hr (by simp)
  · -- existing row r for the pair
    have hrmem : r ∈ db := List.mem_of_find?_eq_some hfind
    have hrkey : voteKey postId userId r = true := List.find?_some hfind
    have hsingle : db.filter (voteKey postId userId) = [r] :=
      eq_singleton_of_length_le_one (hinv postId userId) (List.mem_filter.2 ⟨hrmem, hrkey⟩)
    by_cases hvt : r.vote_type = vt
    · -- same type: the write is a delete; the pair returns to NoVote
      have hstep : voteStep db freshId postId userId vt
          = db.filter (fun x => x.id != r.id) := by
        unfold voteStep handleVote
        rw [hfind]
        simp [hvt, applyWrite]
      have hkeynil : ∀ p u, (db.filter (fun x => x.id != r.id)).filter (voteKey p u)
          = (db.filter (voteKey p u)).filter (fun x => x.id != r.id) := by
        intro p u
        rw [List.filter_filter, List.filter_filter]
        congr 1
        funext a
        rw [Bool.and_comm]
      refine ⟨?_, ?_, ?_, ?_⟩
      · intro p u
        rw [hstep, hkeynil p u]
        calc ((db.filter (voteKey p u)).filter (fun x => x.id != r.id)).length
            ≤ (db.filter (voteKey p u)).length := List.length_filter_le _ _
          _ ≤ 1 := hinv p u
      · intro hnone
        exact absurd hnone (by simp)
      · intro r2 hr2 _
        have : r2 = r := by
          simpa using hr2.symm
        subst this
        rw [hstep, hkeynil, hsingle]
        simp
      · intro r2 hr2 hne
        have : r2 = r := by
          simpa using hr2.symm
        subst this
        exact absurd hvt hne
    · -- opposite type: the write is an in-place vote_type update
      have hstep : voteStep db freshId postId userId vt
          = db.map (fun x => if x.id = r.id then { x with vote_type := vt } else x) := by
        unfold voteStep handleVote
        rw [hfind]
        simp [hvt, applyWrite]
      have hmapfil : ∀ p u, (db.map
            (fun x => if x.id = r.id then { x with vote_type := vt } else x)).filter
              (voteKey p u)
          = (db.filter (voteKey p u)).map
              (fun x => if x.id = r.id then { x with vote_type := vt } else x) := by
        intro p u
        rw [List.filter_map]
        congr 1
        apply List.filter_congr
        intro x _
        exact voteKey_update p r.id u vt x
      refine ⟨?_, ?_, ?_, ?_⟩
      · intro p u
        rw [hstep, hmapfil p u, List.length_map]
        exact hinv p u
      · intro hnone
        exact absurd hnone (by simp)
      · intro r2 hr2 heq
        have : r2 = r := by
          simpa using hr2.symm
        subst this
        exact absurd heq hvt
      · intro r2 hr2 _
        have : r2 = r := by
          simpa using hr2.symm
        subst this
        rw [hstep, hmapfil, hsingle]
        simp

/-- Witness vote table: one existing up-vote by "alice" on post 7. -/
def c2Db : List VoteRow := [⟨1, 7, "alice", VoteType.up⟩]

/-- Witness: repeating the same vote type on a concrete one-row table
deletes the row (toggle-off), preserving the pair invariant. -/
theorem C2_vote_state_machine_witness :
    (∀ p u, ((c2Db.filter (voteKey p u)).length ≤ 1)) ∧
      (voteStep c2Db 2 7 "alice" VoteType.up
          = applyWrite c2Db (handleVote c2Db 2 7 "alice" VoteType.up) ∧
        (∀ p u, (((voteStep c2Db 2 7 "alice" VoteType.up).filter (voteKey p u)).length ≤ 1)) ∧
        (c2Db.find? (voteKey 7 "alice") = none →
            (voteStep c2Db 2 7 "alice" VoteType.up).filter (voteKey 7 "alice")
              = [⟨2, 7, "alice", VoteType.up⟩]) ∧
        (∀ r, c2Db.find? (voteKey 7 "alice") = some r → r.vote_type = VoteType.up →
            (voteStep c2Db 2 7 "alice" VoteType.up).filter (voteKey 7 "alice") = []) ∧
        (∀ r, c2Db.find? (voteKey 7 "alice") = some r → r.vote_type ≠ VoteType.up →
            (voteStep c2Db 2 7 "alice" VoteType.up).filter (voteKey 7 "alice")
              = [{ r with vote_type := VoteType.up }])) :=
  ⟨fun p u => List.length_filter_le _ _,
    C2_vote_state_machine c2Db 2 7 "alice" VoteType.up
      (fun p u => List.length_filter_le _ _)⟩

/-! ## C6 -/

/-- Concatenating the reply pages `0..k` yields the first
`(k+1) * REPLIES_PER_PAGE` replies in order. -/
theorem loadedPages_eq_take (rs : List Reply) (k : Nat) :
    loadedPages rs k = rs.take ((k + 1) * REPLIES_PER_PAGE) := by
  induction k with
  | zero =>
      simp [loadedPages, repliesPage, List.range_succ]
  | succ n ih =>
      unfold loadedPages at ih ⊢
      rw [List.range_succ, List.map_append, List.flatten_append, ih]
      simp only [List.map_cons, List.map_nil, List.flatten_cons, List.flatten_nil,
        List.append_nil, repliesPage]
      rw [← List.take_add]
      congr 1
      ring

/-- C6: replies are served in pages of 5 in `created_at`-ascending order with
`hasMore = (page+1)*pageSize < totalCount`; once `hasMore` is false after
page `k`, the concatenation of pages `0..k` in fetch order is exactly the
full ordered reply set — no duplicates (given distinct rows) and no gaps —
and each page `p` holds `min 5 (total - 5p)` items, e.g. 5, 5, 2 for 12
replies with `hasMore` true, true, false. -/
theorem C6_reply_pagination (rs : List Reply) (k : Nat)
    (hnodup : rs.Nodup)
    (hsorted : rs.Sorted (fun a b => a.created_at ≤ b.created_at))
    (hlast : hasMoreAfter k rs.length = false) :
    loadedPages rs k = rs ∧
    (loadedPages rs k).Nodup ∧
    (loadedPages rs k).Sorted (fun a b => a.created_at ≤ b.created_at) ∧
    (∀ p, (repliesPage rs p).length = min REPLIES_PER_PAGE (rs.length - p * REPLIES_PER_PAGE)) ∧
    (∀ p, hasMoreAfter p rs.length = true ↔ (p + 1) * REPLIES_PER_PAGE < rs.length) := by
  have hle : rs.length ≤ (k + 1) * REPLIES_PER_PAGE := by
    unfold hasMoreAfter at hlast
    rw [decide_eq_false_iff_not] at hlast
    omega
  have hfull : loadedPages rs k = rs := by
    rw [loadedPages_eq_take, List.take_of_length_le hle]
  refine ⟨hfull, ?_, ?_, ?_, ?_⟩
  · rw [hfull]; exact hnodup
  · rw [hfull]; exact hsorted
  · intro p
    unfold repliesPage
    rw [List.length_take, List.length_drop]
  · intro p
    unfold hasMoreAfter
    exact decide_eq_true_iff

/-- Witness reply set: 12 distinct replies to post 1 in ascending
`created_at` order (the spec's 5/5/2 pagination scenario). -/
def c6Replies : List Reply :=
  (List.range 12).map (fun i => ⟨i, 1, "r", "u", (i : Int)⟩)

/-- Witness: with 12 replies, pages 0,1,2 return 5,5,2 items, `hasMore` is
true, true, false, and the three pages concatenate to the full set. -/
theorem C6_reply_pagination_witness :
    (c6Replies.Nodup ∧
      c6Replies.Sorted (fun a b => a.created_at ≤ b.created_at) ∧
      hasMoreAfter 2 c6Replies.length = false) ∧
      (loadedPages c6Replies 2 = c6Replies ∧
        (loadedPages c6Replies 2).Nodup ∧
        (loadedPages c6Replies 2).Sorted (fun a b => a.created_at ≤ b.created_at) ∧
        (∀ p, (repliesPage c6Replies p).length
            = min REPLIES_PER_PAGE (c6Replies.length - p * REPLIES_PER_PAGE)) ∧
        (∀ p, hasMoreAfter p c6Replies.length = true ↔
            (p + 1) * REPLIES_PER_PAGE < c6Replies.length)) :=
  ⟨⟨by decide, by decide, by decide⟩,
    C6_reply_pagination c6Replies 2 (by decide) (by decide) (by decide)⟩

/-- The 5/5/2 page lengths and true/true/false `hasMore` values of the
12-reply scenario, checked concretely. -/
example :
    (repliesPage c6Replies 0).length = 5 ∧
    (repliesPage c6Replies 1).length = 5 ∧
    (repliesPage c6Replies 2).length = 2 ∧
    hasMoreAfter 0 c6Replies.length = true ∧
    hasMoreAfter 1 c6Replies.length = true ∧
    hasMoreAfter 2 c6Replies.length = false := by decide

/-! ## C7 -/

/-- A sequence of write events applied in order. -/
def applyEvents (s : CommunityState) (es : List DbEvent) : CommunityState :=
  es.foldl applyEvent s

/-- One event never decreases any user's points. -/
theorem applyEvent_points_mono (s : CommunityState) (e : DbEvent) (u : String) :
    s.points u ≤ (applyEvent s e).points u := by
  cases e with
  | postInsert pid author =>
      simp only [applyEvent, update_user_points]
      split <;> omega
  | replyInsert rid pid author =>
      simp only [applyEvent, update_user_points]
      split <;> omega
  | voteInsert pid uid vt =>
      simp only [applyEvent]
      generalize (s.posts.find? (fun p => p.1 == pid)).map (fun p => p.2) = o
      cases o with
      | none => exact le_refl _
      | some author =>
          cases vt with
          | up =>
              show s.points u ≤ update_user_points s.points author 2 u
              unfold update_user_points
              by_cases hu : u = author
              · rw [if_pos hu]
                omega
              · rw [if_neg hu]
          | down => exact le_refl _
  | voteUpdate pid uid vt => simp [applyEvent]
  | voteDelete pid uid => simp [applyEvent]

/-- C7: points only ever increase — under any sequence of write events no
user's points decrease — and the per-event increments are exactly the SQL
triggers': +10 to the post author on post insert, +5 to the reply author on
reply insert, +2 to the post's author exactly when an `up` vote row is
inserted; a `down` vote insert, any vote update (flip), and any vote delete
leave the whole points table unchanged. -/
theorem C7_points_accrual (s : CommunityState) (u : String) (es : List DbEvent) :
    s.points u ≤ (applyEvents s es).points u ∧
    (∀ pid author, (applyEvent s (DbEvent.postInsert pid author)).points
        = update_user_points s.points author 10) ∧
    (∀ rid pid author, (applyEvent s (DbEvent.replyInsert rid pid author)).points
        = update_user_points s.points author 5) ∧
    (∀ pid uid pr, s.posts.find? (fun q => q.1 == pid) = some pr →
        (applyEvent s (DbEvent.voteInsert pid uid VoteType.up)).points
          = update_user_points s.points pr.2 2) ∧
    (∀ pid uid, (applyEvent s (DbEvent.voteInsert pid uid VoteType.down)).points
        = s.points) ∧
    (∀ pid uid vt, (applyEvent s (DbEvent.voteUpdate pid uid vt)).points = s.points) ∧
    (∀ pid uid, (applyEvent s (DbEvent.voteDelete pid uid)).points = s.points) := by
  refine ⟨?_, fun _ _ => rfl, fun _ _ _ => rfl, ?_, ?_, fun _ _ _ => rfl, fun _ _ => rfl⟩
  · induction es generalizing s with
    | nil => exact le_refl _
    | cons e es ih =>
        calc s.points u ≤ (applyEvent s e).points u := applyEvent_points_mono s e u
          _ ≤ (applyEvents (applyEvent s e) es).points u := ih (applyEvent s e)
          _ = (applyEvents s (e :: es)).points u := rfl
  · intro pid uid pr hfind
    simp only [applyEvent, hfind, Option.map_some']
    rfl
  · intro pid uid
    simp only [applyEvent]
    generalize (s.posts.find? (fun p => p.1 == pid)).map (fun p => p.2) = o
    cases o <;> rfl

/-- Witness state: one post by "alice", empty points table. -/
def c7State : CommunityState :=
  { posts := [(1, "alice")], points := fun _ => 0 }

/-- Witness: the accrual rules evaluated at a concrete one-post state over
the event sequence [reply by "bob", upvote on post 1]. -/
theorem C7_points_accrual_witness :
    c7State.points "alice"
        ≤ (applyEvents c7State
            [DbEvent.replyInsert 1 1 "bob", DbEvent.voteInsert 1 "bob" VoteType.up]).points
            "alice" ∧
      (∀ pid author, (applyEvent c7State (DbEvent.postInsert pid author)).points
          = update_user_points c7State.points author 10) ∧
      (∀ pid uid, (applyEvent c7State (DbEvent.voteInsert pid uid VoteType.down)).points
          = c7State.points) ∧
      ((applyEvent c7State (DbEvent.voteInsert 1 "bob" VoteType.up)).points
          = update_user_points c7State.points "alice" 2) := by
  have h := C7_points_accrual c7State "alice"
    [DbEvent.replyInsert 1 1 "bob", DbEvent.voteInsert 1 "bob" VoteType.up]
  exact ⟨h.1, h.2.1, fun pid uid => h.2.2.2.2.1 pid uid,
    h.2.2.2.1 1 "bob" (1, "alice") (by decide)⟩

/-! ## C1 -/

/-- C1: at submission every question is mapped to
`userAnswer = answers[id] ?? ""`, `isSkipped ↔ userAnswer = ""`,
`isCorrect ↔ ¬skipped ∧ userAnswer = correct_answer`; the aggregates are
`score = count(isCorrect)`, `skippedCount = count(isSkipped)`,
`wrongCount = total - score - skippedCount`; hence the persisted row
satisfies `correct_count + wrong_count + skipped_count = total_questions`
and `score_percent = round(correct_count / total_questions * 100)`. -/
theorem C1_submission_scoring (s : TestState) (now : Int) (hne : s.questions ≠ []) :
    (handleSubmit s now).results = s.questions.map (resultFor s.answers) ∧
    (∀ q : Question,
        (resultFor s.answers q).userAnswer = (s.answers q.id).getD "" ∧
        ((resultFor s.answers q).isSkipped = true ↔ (s.answers q.id).getD "" = "") ∧
        ((resultFor s.answers q).isCorrect = true ↔
          ¬ (s.answers q.id).getD "" = "" ∧
            (s.answers q.id).getD "" = q.correct_answer)) ∧
    (handleSubmit s now).score
        = (((handleSubmit s now).results).filter (fun r => r.isCorrect)).length ∧
    (handleSubmit s now).skippedCount
        = (((handleSubmit s now).results).filter (fun r => r.isSkipped)).length ∧
    (saveResults (handleSubmit s now)).wrong_count
        = ((saveResults (handleSubmit s now)).total_questions : Int)
          - ((saveResults (handleSubmit s now)).correct_count : Int)
          - ((saveResults (handleSubmit s now)).skipped_count : Int) ∧
    ((saveResults (handleSubmit s now)).correct_count : Int)
        + (saveResults (handleSubmit s now)).wrong_count
        + ((saveResults (handleSubmit s now)).skipped_count : Int)
        = ((saveResults (handleSubmit s now)).total_questions : Int) ∧
    ((saveResults (handleSubmit s now)).score_percent : Int)
        = round (((saveResults (handleSubmit s now)).correct_count : ℚ)
            / ((saveResults (handleSubmit s now)).total_questions : ℚ) * 100) := by
  have hpos : 0 < s.questions.length := List.length_pos.2 hne
  refine ⟨rfl, ?_, rfl, rfl, ?_, ?_, ?_⟩
  · intro q
    refine ⟨rfl, ?_, ?_⟩
    · simp [resultFor]
    · simp only [resultFor, Bool.and_eq_true, Bool.not_eq_true', beq_eq_false_iff_ne,
        ne_eq, beq_iff_eq]
  · simp only [saveResults, handleSubmit, List.length_map]
  · simp only [saveResults, handleSubmit, List.length_map]
    ring
  · exact roundPct_eq_round ((handleSubmit s now).score) (s.questions.length) hpos

/-- Witness attempt: the spec's scenario — three questions with correct
answers A, B, C; the user answered A (right) and X (wrong) and left the
third blank. -/
def c1State : TestState :=
  { questions := [⟨1, "q1", ["A", "B"], "A", "Anatomy", ""⟩,
                  ⟨2, "q2", ["B", "X"], "B", "Anatomy", ""⟩,
                  ⟨3, "q3", ["C", "D"], "C", "Anatomy", ""⟩]
    currentQuestionIndex := 2
    answers := fun k => if k = 1 then some "A" else if k = 2 then some "X" else none
    timeLeft := 10
    questionStartTime := 0
    timePerQuestion := fun _ => 0 }

/-- Witness: the scoring contract evaluated at the concrete 3-question
scenario. -/
theorem C1_submission_scoring_witness :
    c1State.questions ≠ [] ∧
      ((handleSubmit c1State 0).results = c1State.questions.map (resultFor c1State.answers) ∧
        (∀ q : Question,
            (resultFor c1State.answers q).userAnswer = (c1State.answers q.id).getD "" ∧
            ((resultFor c1State.answers q).isSkipped = true ↔
              (c1State.answers q.id).getD "" = "") ∧
            ((resultFor c1State.answers q).isCorrect = true ↔
              ¬ (c1State.answers q.id).getD "" = "" ∧
                (c1State.answers q.id).getD "" = q.correct_answer)) ∧
        (handleSubmit c1State 0).score
            = (((handleSubmit c1State 0).results).filter (fun r => r.isCorrect)).length ∧
        (handleSubmit c1State 0).skippedCount
            = (((handleSubmit c1State 0).results).filter (fun r => r.isSkipped)).length ∧
        (saveResults (handleSubmit c1State 0)).wrong_count
            = ((saveResults (handleSubmit c1State 0)).total_questions : Int)
              - ((saveResults (handleSubmit c1State 0)).correct_count : Int)
              - ((saveResults (handleSubmit c1State 0)).skipped_count : Int) ∧
        ((saveResults (handleSubmit c1State 0)).correct_count : Int)
            + (saveResults (handleSubmit c1State 0)).wrong_count
            + ((saveResults (handleSubmit c1State 0)).skipped_count : Int)
            = ((saveResults (handleSubmit c1State 0)).total_questions : Int) ∧
        ((saveResults (handleSubmit c1State 0)).score_percent : Int)
            = round (((saveResults (handleSubmit c1State 0)).correct_count : ℚ)
                / ((saveResults (handleSubmit c1State 0)).total_questions : ℚ) * 100)) :=
  ⟨by decide, C1_submission_scoring c1State 0 (by decide)⟩

/-- The spec's concrete numbers for the scenario: score 1, wrong 1,
skipped 1, 33 percent. -/
example :
    (saveResults (handleSubmit c1State 0)).correct_count = 1 ∧
    (saveResults (handleSubmit c1State 0)).wrong_count = 1 ∧
    (saveResults (handleSubmit c1State 0)).skipped_count = 1 ∧
    (saveResults (handleSubmit c1State 0)).total_questions = 3 ∧
    (saveResults (handleSubmit c1State 0)).score_percent = 33 := by decide

/-! ## C4 -/

/-- Coin-driven insertion produces a permutation of `x :: ys`, whatever the
comparator answers. -/
theorem insertC_perm (x : Question) :
    ∀ (coins : List Bool) (ys : List Question), (insertC x coins ys).2.Perm (x :: ys) := by
  intro coins ys
  induction ys generalizing coins with
  | nil => simp [insertC]
  | cons y ys ih =>
      cases coins with
      | nil => simp [insertC]
      | cons c cs =>
          by_cases hc : c = true
          · simp [insertC, hc]
          · simp only [insertC, if_neg hc]
            refine List.Perm.trans (List.Perm.cons y (ih cs)) ?_
            exact List.Perm.swap x y ys

/-- Coin-driven insertion sort permutes its input, whatever the comparator
answers: the shuffled list always contains exactly the fetched questions. -/
theorem sortC_perm : ∀ (coins : List Bool) (l : List Question), (sortC coins l).2.Perm l := by
  intro coins l
  induction l generalizing coins with
  | nil => simp [sortC]
  | cons x xs ih =>
      simp only [sortC]
      refine List.Perm.trans (insertC_perm x _ _) ?_
      exact List.Perm.cons x (ih _)

/-- C4 counterexample: over the 8 equally likely comparator-sign sequences,
the shuffle of three distinct questions yields the identity order twice but
the transposed order `[q4b, q4a, q4c]` only once — the permutations are not
equally likely, so the comparator shuffle is not an unbiased random
permutation.  (No comparator-driven shuffle on 3 elements can be uniform:
the six permutation probabilities would each have to be 1/6, which is not a
dyadic rational.) -/
theorem C4_shuffle_not_uniform_counterexample :
    shuffleCount [q4a, q4b, q4c] = 2 ∧
    shuffleCount [q4b, q4a, q4c] = 1 ∧
    ¬ shuffleCount [q4a, q4b, q4c] = shuffleCount [q4b, q4a, q4c] := by decide

/-- C4 amended: given a non-empty fetched set, the attempt's question
sequence is the first `min(20, count)` elements of *some* permutation of the
fetched set — duplicate-free when the fetched set is, and drawn entirely
from it — but the permutation is produced by the biased
`sort(() => Math.random() - 0.5)` idiom, not an unbiased one; the countdown
is `round(questionCount × 63) = 63 × min(20, count)` seconds as a single
global timer. -/
theorem C4_selection_and_timer (coins : List Bool) (fetched : List Question)
    (hne : fetched ≠ []) :
    fetchQuestionsSelect coins fetched
        = some (((sortC coins fetched).2).take 20,
            mathRoundNat ((((sortC coins fetched).2).take 20).length * 63)) ∧
    ((sortC coins fetched).2).Perm fetched ∧
    (((sortC coins fetched).2).take 20).length = min 20 fetched.length ∧
    mathRoundNat ((((sortC coins fetched).2).take 20).length * 63)
        = min 20 fetched.length * 63 ∧
    (fetched.Nodup → (((sortC coins fetched).2).take 20).Nodup) ∧
    (∀ q ∈ ((sortC coins fetched).2).take 20, q ∈ fetched) := by
  have hperm := sortC_perm coins fetched
  have hlen : (((sortC coins fetched).2).take 20).length = min 20 fetched.length := by
    rw [List.length_take, hperm.length_eq]
  refine ⟨?_, hperm, hlen, ?_, ?_, ?_⟩
  · simp [fetchQuestionsSelect, hne]
  · rw [mathRoundNat_eq, hlen]
  · intro hnd
    exact List.Nodup.sublist (List.take_sublist _ _) (hperm.symm.nodup hnd)
  · intro q hq
    exact hperm.mem_iff.1 (List.mem_of_mem_take hq)

/-- Witness: the amended selection contract on a concrete three-question
fetched set and comparator-sign sequence. -/
theorem C4_selection_and_timer_witness :
    ([q4a, q4b, q4c] ≠ ([] : List Question)) ∧
      (fetchQuestionsSelect [true, false, true] [q4a, q4b, q4c]
          = some (((sortC [true, false, true] [q4a, q4b, q4c]).2).take 20,
              mathRoundNat
                ((((sortC [true, false, true] [q4a, q4b, q4c]).2).take 20).length * 63)) ∧
        ((sortC [true, false, true] [q4a, q4b, q4c]).2).Perm [q4a, q4b, q4c] ∧
        (((sortC [true, false, true] [q4a, q4b, q4c]).2).take 20).length
            = min 20 ([q4a, q4b, q4c] : List Question).length ∧
        mathRoundNat
            ((((sortC [true, false, true] [q4a, q4b, q4c]).2).take 20).length * 63)
            = min 20 ([q4a, q4b, q4c] : List Question).length * 63 ∧
        (([q4a, q4b, q4c] : List Question).Nodup →
            (((sortC [true, false, true] [q4a, q4b, q4c]).2).take 20).Nodup) ∧
        (∀ q ∈ ((sortC [true, false, true] [q4a, q4b, q4c]).2).take 20,
            q ∈ ([q4a, q4b, q4c] : List Question))) :=
  ⟨by decide, C4_selection_and_timer [true, false, true] [q4a, q4b, q4c] (by decide)⟩
